import Mathlib

/-!
Verification of the quaker USGS earthquake API client.

This file shallowly embeds the core of the repository:

* `quaker/globals.py` — the numeric constants.
* `quaker/core/query.py` — the `Query` dataclass and its validation chain
  (`_FieldChecker` assertions run by the `__post_init__` methods of the
  component dataclasses).  Fields keep their Python names and optionality;
  floats are modelled as `ℚ`, ints as `ℤ`.  The `datetime.fromisoformat`
  check and Python's `float(str)` typecast are external library calls, so
  they are abstracted as an oracle record (`Oracles`) that every definition
  and theorem is parameterised over.
* `quaker/core/record_filter.py` — the `Cache` (deque + set) and the
  `RecordFilter`.  The Python `set` is modelled as a `Finset String`
  (`set.add` = `insert`, `set.remove` = `erase`); the `deque` as a
  `List String` whose head is the left (oldest) end.
* `quaker/core/client.py` — the pagination loop `_execute_paginiated`, the
  decision helpers `_check_filtered_results`, `_check_valid_magnitude_results`
  and `_check_download_error`, the cursor derivation `_next_page`, the
  transport wrapper `_execute` and the entry point `execute`.  The HTTP
  transport and the format `Parser` are abstracted: the environment is a
  stream `Nat → Response` of responses already decomposed into
  header / records / footer with each record carrying the
  (line, event id, event time, event magnitude) data that
  `Parser.unpack_response` / `unpack_records` would extract.

`logger.warning` / `logger.info` messages that the claims talk about are
accumulated in a warning list; raised Python exceptions are modelled as
`Except.error` with a message naming the exception.
-/

/-- `quaker/globals.py`: `UPPER_LIMIT = 20000`, the API's per-request cap. -/
def UPPER_LIMIT : Nat := 20000

/-- `quaker/globals.py`: `MAX_ATTEMPTS = 3`, the transport retry budget. -/
def MAX_ATTEMPTS : Nat := 3

/-- `quaker/globals.py`: `RESPONSE_BAD_REQUEST = 400`. -/
def RESPONSE_BAD_REQUEST : Nat := 400

/-- `quaker/globals.py`: `RESPONSE_NO_CONTENT = 204`. -/
def RESPONSE_NO_CONTENT : Nat := 204

/-- `quaker/globals.py`: `RESPONSE_NOT_FOUND = 404`. -/
def RESPONSE_NOT_FOUND : Nat := 404

/-- External library behaviour the embedding is parameterised over:
`isTime s` models `datetime.fromisoformat(s)` succeeding
(`_QueryTime.check_time_field_is_valid`), and `toFloat s` models Python's
`float(s)` typecast (`_BaseQuery.__post_init__` casting a string assigned to a
float-typed field), returning `none` when the cast raises `ValueError`. -/
structure Oracles where
  isTime : String → Bool
  toFloat : String → Option ℚ

/-- `quaker/core/query.py`: the `Query` dataclass — the union of the fields of
`_QueryFormat`, `_QueryTime`, `_QueryLocationRectangle`, `_QueryLocationCircle`,
`_QueryOther` and `_QueryExtensions`, all optional and defaulting to `None`. -/
structure Query where
  format : Option String := none
  starttime : Option String := none
  endtime : Option String := none
  updatedafter : Option String := none
  minlatitude : Option ℚ := none
  minlongitude : Option ℚ := none
  maxlatitude : Option ℚ := none
  maxlongitude : Option ℚ := none
  latitude : Option ℚ := none
  longitude : Option ℚ := none
  maxradius : Option ℚ := none
  maxradiuskm : Option ℚ := none
  catalog : Option String := none
  contributor : Option String := none
  eventid : Option String := none
  includeallmagnitudes : Option Bool := none
  includeallorigins : Option Bool := none
  includedeleted : Option String := none
  includesuperceded : Option Bool := none
  limit : Option ℤ := none
  maxdepth : Option ℚ := none
  maxmagnitude : Option ℚ := none
  mindepth : Option ℚ := none
  minmagnitude : Option ℚ := none
  offset : Option ℤ := none
  orderby : Option String := none
  alertlevel : Option String := none
  callback : Option String := none
  eventtype : Option String := none
  jsonerror : Option Bool := none
  kmlanimated : Option Bool := none
  kmlcolorby : Option String := none
  maxcdi : Option ℚ := none
  maxgap : Option ℚ := none
  maxmmi : Option ℚ := none
  maxsig : Option ℤ := none
  mincdi : Option ℚ := none
  minfelt : Option ℤ := none
  mingap : Option ℚ := none
  minsig : Option ℤ := none
  producttype : Option String := none
  productcode : Option String := none
  reviewstatus : Option String := none
deriving DecidableEq

/-- `_FieldChecker.assert_fields_ordered`: passes unless both fields are given,
in which case it asserts `min_field_value < max_field_value` (note: strict). -/
def assert_fields_ordered {α : Type} [LinearOrder α]
    (mn mx : Option α) : Bool :=
  match mn, mx with
  | some a, some b => decide (a < b)
  | _, _ => true

/-- `_FieldChecker.assert_fields_bounded` for one field: passes when the field
is unset, otherwise asserts `min_value ≤ v` (when a lower bound is given) and
`v ≤ max_value` (when an upper bound is given). -/
def assert_field_bounded {α : Type} [LinearOrder α]
    (v : Option α) (lo hi : Option α) : Bool :=
  match v with
  | none => true
  | some a =>
    (match lo with | none => true | some l => decide (l ≤ a)) &&
    (match hi with | none => true | some h => decide (a ≤ h))

/-- `_FieldChecker.assert_fields_mutually_exclusive` for a two-field list:
at most one of the two fields may be set. -/
def assert_fields_mutually_exclusive {α β : Type}
    (a : Option α) (b : Option β) : Bool :=
  !(a.isSome && b.isSome)

/-- `_FieldChecker.assert_field_allowed_values`: the field is unset or its
value is one of the allowed values. -/
def assert_field_allowed_values (v : Option String) (allowed : List String) : Bool :=
  match v with
  | none => true
  | some s => allowed.contains s

/-- `_QueryTime.check_time_field_is_valid`: an unset time field is fine,
otherwise `datetime.fromisoformat` (the `isTime` oracle) must accept it. -/
def check_time_field_is_valid (or : Oracles) (v : Option String) : Bool :=
  match v with
  | none => true
  | some s => or.isTime s

/-- Whether `Query` construction succeeds: the conjunction of every assertion
run by the chained `__post_init__` methods of
`_QueryFormat`, `_QueryTime`, `_QueryLocationRectangle`, `_QueryLocationCircle`,
`_QueryOther` and `_QueryExtensions` (construction raises on the first failing
assertion; for raise-or-not only the conjunction matters). -/
def queryValid (or : Oracles) (q : Query) : Bool :=
  -- _QueryExtensions.__post_init__
  assert_field_allowed_values q.alertlevel ["green", "yellow", "orange", "red"] &&
  assert_field_allowed_values q.kmlcolorby ["age", "depth"] &&
  assert_field_allowed_values q.reviewstatus ["all", "automatic", "reviewed"] &&
  assert_field_bounded q.mingap (some 0) (some 360) &&
  assert_field_bounded q.maxgap (some 0) (some 360) &&
  assert_field_bounded q.mincdi (some 0) (some 12) &&
  assert_field_bounded q.maxcdi (some 0) (some 12) &&
  assert_fields_ordered q.mingap q.maxgap &&
  assert_fields_ordered q.mincdi q.maxcdi &&
  -- _QueryOther.__post_init__
  assert_fields_mutually_exclusive q.includedeleted q.includesuperceded &&
  assert_field_allowed_values q.orderby ["time", "time-asc", "magnitude", "magnitude-asc"] &&
  assert_field_allowed_values q.includedeleted ["true", "false", "only"] &&
  assert_fields_ordered q.minmagnitude q.maxmagnitude &&
  assert_fields_ordered q.mindepth q.maxdepth &&
  assert_field_bounded q.minmagnitude (some 0) (some 12) &&
  assert_field_bounded q.maxmagnitude (some 0) (some 12) &&
  assert_field_bounded q.offset (some 1) none &&
  assert_field_bounded q.limit (some 0) none &&
  -- _QueryLocationCircle.__post_init__
  assert_fields_mutually_exclusive q.maxradius q.maxradiuskm &&
  assert_field_bounded q.maxradius (some 0) (some 180) &&
  assert_field_bounded q.maxradiuskm (some 0) (some (mkRat 200016 10)) &&  -- 20001.6
  assert_field_bounded q.latitude (some (-90)) (some 90) &&
  assert_field_bounded q.longitude (some (-180)) (some 180) &&
  -- _QueryLocationRectangle.__post_init__
  assert_field_bounded q.minlatitude (some (-90)) (some 90) &&
  assert_field_bounded q.maxlatitude (some (-90)) (some 90) &&
  assert_field_bounded q.minlongitude (some (-360)) (some 360) &&
  assert_field_bounded q.maxlongitude (some (-360)) (some 360) &&
  assert_fields_ordered q.minlatitude q.maxlatitude &&
  assert_fields_ordered q.minlongitude q.maxlongitude &&
  -- _QueryTime.__post_init__
  check_time_field_is_valid or q.starttime &&
  check_time_field_is_valid or q.endtime &&
  check_time_field_is_valid or q.updatedafter &&
  -- _QueryFormat.__post_init__
  assert_field_allowed_values q.format ["csv", "text", "geojson", "xml", "quakeml", "xml"]

/-- `Query(**fields)`: returns the constructed query, or the validation error
(`AssertionError` / `ValueError`) construction raises. -/
def mkQuery (or : Oracles) (q : Query) : Except String Query :=
  if queryValid or q then .ok q else .error "AssertionError: invalid query"

/-- `quaker/core/record_filter.py`: `Cache`, a deque (`stash`, head = left =
oldest end) and a set (`registry`), plus the deque's `maxlen`. -/
structure Cache where
  stash : List String
  registry : Finset String
  maxlen : Option Nat
deriving DecidableEq

/-- `Cache([], maxlen=m)`: both containers start empty. -/
def Cache.empty (m : Option Nat) : Cache :=
  { stash := [], registry := ∅, maxlen := m }

/-- Python truthiness of `self.maxlen` (`None` and `0` are falsy). -/
def maxlenTruthy : Option Nat → Bool
  | none => false
  | some m => m != 0

/-- `collections.deque.append` with a `maxlen`: push on the right; when the
deque would exceed `maxlen`, elements are discarded from the left. -/
def dequeAppend (maxlen : Option Nat) (l : List String) (v : String) : List String :=
  match maxlen with
  | none => l ++ [v]
  | some m =>
    let l2 := l ++ [v]
    if m < l2.length then l2.drop (l2.length - m) else l2

/-- `Cache.append`: when `maxlen` is truthy and the stash is full, popleft the
oldest id and `registry.remove` it (modelled as `Finset.erase`); then append
the value to the stash and `registry.add` it. -/
def Cache.append (c : Cache) (v : String) : Cache :=
  let c1 :=
    if maxlenTruthy c.maxlen && (c.stash.length == c.maxlen.getD 0) then
      { c with stash := c.stash.tail, registry := c.registry.erase (c.stash.headD "") }
    else c
  { c1 with stash := dequeAppend c1.maxlen c1.stash v,
            registry := insert v c1.registry }

/-- `Cache.pop`: pop from the right of the deque (raises `IndexError` on an
empty deque, hence `Option`) and remove the value from the registry. -/
def Cache.popRight (c : Cache) : Option (String × Cache) :=
  match c.stash.getLast? with
  | none => none
  | some v => some (v, { c with stash := c.stash.dropLast, registry := c.registry.erase v })

/-- `Cache.__contains__`: membership is tested against the registry. -/
def Cache.containsId (c : Cache) (v : String) : Bool :=
  v ∈ c.registry

/-- One parsed event record: the raw output line plus the
(event_id, event_time, event_magnitude) triple `Parser.event_record`
extracts from it (magnitude kept as the string the parser returns). -/
structure EventRecord where
  line : String
  eventId : String
  eventTime : String
  eventMag : String
deriving DecidableEq

/-- `RecordFilter.__call__`: walk `zip(event_ids, records)`; a record whose id
is already in the cache is dropped (counted as a duplicate), otherwise the
record is kept and its id appended to the cache.  Returns the kept records
(the Python code returns their `line`s) and the final cache. -/
def recordFilter (c : Cache) (recs : List EventRecord) : List EventRecord × Cache :=
  match recs with
  | [] => ([], c)
  | r :: rest =>
    if c.containsId r.eventId then
      recordFilter c rest
    else
      (r :: (recordFilter (c.append r.eventId) rest).1,
       (recordFilter (c.append r.eventId) rest).2)

/-- A decomposed HTTP response body, as `Parser.unpack_response` returns it:
header lines, record lines (each with the parsed event triple) and footer
lines. -/
structure Page where
  header : List String
  records : List EventRecord
  footer : List String
deriving DecidableEq

/-- An HTTP response: its status code and its parsed body. -/
structure Response where
  status : Nat
  page : Page
deriving DecidableEq

/-- The retry loop inside `Client._execute`: up to the given number of
attempts, pop the next response from the stream; a response whose status is
not 404 is returned at once; after exhausting the attempts, `None` is
returned (the `return out` fall-through).  The second component is the index
of the next unconsumed response. -/
def transportAttempts (resp : Nat → Response) : Nat → Nat → Option Response × Nat
  | 0, k => (none, k)
  | Nat.succ n, k =>
    let r := resp k
    if r.status ≠ RESPONSE_NOT_FOUND then (some r, k + 1)
    else transportAttempts resp n (k + 1)

/-- `Client._execute`: `MAX_ATTEMPTS` tries against the response stream. -/
def execute_transport (resp : Nat → Response) (k : Nat) : Option Response × Nat :=
  transportAttempts resp MAX_ATTEMPTS k

/-- `Client._check_filtered_results`: `has_next_page` starts `True`; a
warning is logged if `n_results - n_results_raw > 0` (filtered minus raw —
never positive, kept faithfully); `n_results == 0` and
`n_results_raw < UPPER_LIMIT` each force `has_next_page = False` with a log
message.  Returns the flag and the logged messages. -/
def check_filtered_results (records_filtered records : List EventRecord) :
    Bool × List String :=
  let n_results := records_filtered.length
  let n_results_raw := records.length
  let w1 : List String :=
    if n_results_raw < n_results then ["duplicate records found on page"] else []
  let b2 := n_results != 0
  let w2 : List String :=
    if n_results = 0 then ["No new records found on page, exiting loop"] else []
  let b3 := b2 && !(n_results_raw < UPPER_LIMIT)
  let w3 : List String :=
    if n_results_raw < UPPER_LIMIT then ["Written last page, exiting loop"] else []
  (b3, w1 ++ w2 ++ w3)

/-- Python's `str.removesuffix`: when the string ends with the (non-empty)
suffix, the copy with the suffix removed; otherwise the string unchanged. -/
def removesuffix (s suffix : String) : String :=
  if suffix.data.length ≤ s.data.length &&
      decide (s.data.drop (s.data.length - suffix.data.length) = suffix.data) then
    ⟨s.data.take (s.data.length - suffix.data.length)⟩
  else s

/-- `Client._check_valid_magnitude_results`: `has_next_page` is forced to
`False`, with a warning, when `orderby` is set, `orderby.removesuffix("-asc")`
is `"magnitude"`, and the page's magnitude strings form a one-element set. -/
def check_valid_magnitude_results (q : Query) (mags : List String) :
    Bool × List String :=
  match q.orderby with
  | some ob =>
    if removesuffix ob "-asc" = "magnitude" && mags.toFinset.card == 1 then
      (false,
        ["Page contains only one magnitude value, so cannot determine next page. Exiting loop."])
    else (true, [])
  | none => (true, [])

/-- `Client._next_page`: pick the cursor field by `query.orderby or "time"`,
set it to the last record's time (time modes) or magnitude (magnitude modes —
the string is typecast by `float()` during `Query.__post_init__`, modelled by
the `toFloat` oracle), override `limit`, and rebuild the query via
`Query(**query_dict)` (which re-runs validation). -/
def next_page (or : Oracles) (q : Query) (last_time last_magnitude : String)
    (limit : Option ℤ) : Except String Query :=
  match q.orderby.getD "time" with
  | "time" => mkQuery or { q with endtime := some last_time, limit := limit }
  | "time-asc" => mkQuery or { q with starttime := some last_time, limit := limit }
  | "magnitude" =>
    match or.toFloat last_magnitude with
    | none => .error "ValueError: could not convert string to float"
    | some v => mkQuery or { q with maxmagnitude := some v, limit := limit }
  | "magnitude-asc" =>
    match or.toFloat last_magnitude with
    | none => .error "ValueError: could not convert string to float"
    | some v => mkQuery or { q with minmagnitude := some v, limit := limit }
  | _ => .error "KeyError: invalid orderby"

/-- Line 90 of `client.py`: the per-request cap applied to the caller's
remaining limit: `UPPER_LIMIT if limit is None else min(limit, UPPER_LIMIT)`. -/
def capLimit : Option ℤ → ℤ
  | none => (UPPER_LIMIT : ℤ)
  | some l => min l (UPPER_LIMIT : ℤ)

/-- The mutable state of the `while has_next_page` loop in
`Client._execute_paginiated`: the current query, the `RecordFilter` cache,
the accumulated `results`, the most recently parsed `footer`, the
`page_index`, the position in the response stream, plus the request
`history` (`Client.history`) and the accumulated log warnings. -/
structure LoopState where
  query : Query
  cache : Cache
  results : List String
  footer : List String
  pageIndex : Nat
  cursor : Nat
  history : List Query
  warnings : List String
deriving DecidableEq

/-- The outcome of a paginated fetch: the returned `results` lines (or the
exception raised), the request history and the logged warnings. -/
structure RunOut where
  result : Except String (List String)
  history : List Query
  warnings : List String

/-- Normal loop exit: `results += footer` and return. -/
def finishRun (st : LoopState) : RunOut :=
  { result := .ok (st.results ++ st.footer),
    history := st.history, warnings := st.warnings }

/-- One iteration of the loop body (lines 89–127 of `client.py`).  Returns
the updated state and either the raised exception or the `has_next_page`
value the iteration ends with. -/
def loopIter (or : Oracles) (resp : Nat → Response) (st : LoopState) :
    LoopState × Except String Bool :=
  let limit0 := st.query.limit
  let q1 : Query := { st.query with limit := some (capLimit limit0) }
  let tr := execute_transport resp st.cursor
  let st := { st with query := q1, cursor := tr.2, history := st.history ++ [q1] }
  match tr.1 with
  | none => (st, .error "AttributeError: NoneType object has no attribute ok")
  | some download =>
    -- `requests.Response.ok` is `status_code < 400`
    if RESPONSE_BAD_REQUEST ≤ download.status then
      -- `_check_download_error`: the `status == RESPONSE_NO_CONTENT` branch
      -- returning `empty_page = True` is unreachable here (204 < 400), so this
      -- path always raises.
      (st, .error (if download.status = RESPONSE_BAD_REQUEST then
          "RuntimeError: Invalid query (400)." else
          "RuntimeError: Unexpected response code on query."))
    else
      let page := download.page
      let st := { st with
        results := st.results ++ (if st.pageIndex = 0 then page.header else []),
        footer := page.footer }
      if page.records.isEmpty then
        -- `empty_page = True; has_next_page = False`
        (st, .ok false)
      else
        let recs := page.records
        let times := recs.map EventRecord.eventTime
        let mags := recs.map EventRecord.eventMag
        let kept := (recordFilter st.cache recs).1
        let cache' := (recordFilter st.cache recs).2
        let filterWarn : List String :=
          if kept.length < recs.length then ["duplicate_events"] else []
        let warn1 := (check_filtered_results kept recs).2
        -- line 118 computes `has_next_page` from `_check_filtered_results`
        -- (`(check_filtered_results kept recs).1`), and line 119 immediately
        -- overwrites it with `_check_valid_magnitude_results`
        let warn2 := (check_valid_magnitude_results q1 mags).2
        let has_next := (check_valid_magnitude_results q1 mags).1
        let st := { st with
          cache := cache',
          results := st.results ++ kept.map EventRecord.line,
          warnings := st.warnings ++ filterWarn ++ warn1 ++ warn2 }
        if has_next then
          let limit' := match limit0 with
            | none => none
            | some l => some (l - (recs.length : ℤ))
          match next_page or q1 (times.getLastD "") (mags.getLastD "") limit' with
          | .error e => (st, .error e)
          | .ok q' => ({ st with query := q', pageIndex := st.pageIndex + 1 }, .ok true)
        else (st, .ok false)

/-- The `while has_next_page` loop with the `page_index >= MAX_PAGES` break
(`MAX_PAGES` is imported by `client.py` but absent from `globals.py`, so it is
a parameter here).  `fuel` bounds the recursion; `execute_paginiated` supplies
enough for the page ceiling. -/
def runLoop (or : Oracles) (resp : Nat → Response) (maxPages : Nat) :
    Nat → LoopState → RunOut
  | 0, st => { result := .error "fuel exhausted", history := st.history,
               warnings := st.warnings }
  | Nat.succ fuel, st =>
    if maxPages ≤ st.pageIndex then
      finishRun { st with warnings := st.warnings ++ ["Hit page limit, exiting loop"] }
    else
      let st' := (loopIter or resp st).1
      match (loopIter or resp st).2 with
      | .error e =>
        { result := .error e, history := st'.history, warnings := st'.warnings }
      | .ok true => runLoop or resp maxPages fuel st'
      | .ok false => finishRun st'

/-- The initial loop state of `Client._execute_paginiated`: fresh
`RecordFilter([], maxlen=UPPER_LIMIT)`, empty accumulators, page index 0. -/
def initState (q : Query) : LoopState :=
  { query := q, cache := Cache.empty (some UPPER_LIMIT), results := [],
    footer := [], pageIndex := 0, cursor := 0, history := [], warnings := [] }

/-- `Client._execute_paginiated`: run the loop from the initial state.  The
loop makes at most `maxPages + 1` iterations (every continuing iteration
increments `page_index`, and the break fires at `maxPages`), so
`maxPages + 1` fuel is exact. -/
def execute_paginiated (or : Oracles) (resp : Nat → Response) (maxPages : Nat)
    (q : Query) : RunOut :=
  runLoop or resp maxPages (maxPages + 1) (initState q)

/-- `Client.execute`: when no output file is given the query's `format`
field is overwritten to `"csv"` before fetching; the fetch runs; with no
output file the results are parsed into an in-memory table (modelled as the
result lines), otherwise they are written to the file and `None` is
returned.

The returned `Query` is the caller's query object as the caller observes it
after the call.  In Python it is mutated in place twice: `execute` sets
`format` before fetching, and the first loop iteration of
`_execute_paginiated` executes `query.limit = UPPER_LIMIT if limit is None
else min(limit, UPPER_LIMIT)` (line 90) while the local name `query` still
refers to the caller's object.  `query = self._next_page(...)` then rebinds
the local name to a fresh `Query`, so no later iteration touches the
caller's object.  Since `_execute` appends that same object to
`Client.history` on the first iteration, the caller's object after the call
is the first history entry; when the loop breaks before any iteration the
caller's object carries only the `format` mutation. -/
def client_execute (or : Oracles) (resp : Nat → Response) (maxPages : Nat)
    (q : Query) (output_file : Option String) :
    Except String (Query × Option (List String)) :=
  let q := if output_file.isNone then { q with format := some "csv" } else q
  let out := execute_paginiated or resp maxPages q
  let qAfter := out.history.headD q
  match out.result with
  | .error e => .error e
  | .ok results =>
    match output_file with
    | none => .ok (qAfter, some results)
    | some _ => .ok (qAfter, none)

/-- A single `Cache` operation, for stating the cache invariant. -/
inductive CacheOp where
  | append (v : String)
  | pop
deriving DecidableEq

/-- Run a sequence of `Cache.append` / `Cache.pop` operations; `none` when a
`pop` raises (`IndexError` on an empty deque). -/
def runOps : Cache → List CacheOp → Option Cache
  | c, [] => some c
  | c, CacheOp.append v :: rest => runOps (c.append v) rest
  | c, CacheOp.pop :: rest =>
    match c.popRight with
    | none => none
    | some (_, c') => runOps c' rest

/-- The values appended by a sequence of cache operations, in order. -/
def appendedVals : List CacheOp → List String
  | [] => []
  | CacheOp.append v :: rest => v :: appendedVals rest
  | CacheOp.pop :: rest => appendedVals rest

/-! ### Concrete test fixtures -/

/-- Oracles for concrete runs: every time string parses, every magnitude
string casts to `1`. -/
def oracleTrue : Oracles := ⟨fun _ => true, fun _ => some 1⟩

/-- A single-record page: raw record count 1, far below `UPPER_LIMIT`. -/
def pageOneRecord : Page := ⟨["H"], [⟨"L1", "a", "T1", "5.0"⟩], []⟩

/-- An empty page (no records). -/
def pageNoRecords : Page := ⟨["H"], [], []⟩

/-- Response stream for C1: one short page, then empty pages. -/
def respShortPage : Nat → Response := fun n =>
  if n = 0 then ⟨200, pageOneRecord⟩ else ⟨200, pageNoRecords⟩

/-- Response stream for C4: a page introducing id `"a"`, then a page whose
records are all duplicates of `"a"`, then empty pages. -/
def respAllDup : Nat → Response := fun n =>
  if n = 0 then ⟨200, pageOneRecord⟩
  else if n = 1 then ⟨200, ⟨["H2"], [⟨"L1x", "a", "T1x", "5.5"⟩], ["F2"]⟩⟩
  else ⟨200, pageNoRecords⟩

/-- Response stream for C3's witness: one page whose two records share the
magnitude string `"5.0"`, then empty pages. -/
def respMagTie : Nat → Response := fun n =>
  if n = 0 then ⟨200, ⟨["H"], [⟨"L1", "a", "T1", "5.0"⟩, ⟨"L2", "b", "T2", "5.0"⟩], ["F"]⟩⟩
  else ⟨200, pageNoRecords⟩

/-- Response stream for C2's counterexample: a page with ids `a`, `b`, `a` —
the final raw record (time `"T3"`) is a duplicate, so the last surviving
record is the one with time `"T2"`. -/
def respDupTail : Nat → Response := fun n =>
  if n = 0 then
    ⟨200, ⟨["H"], [⟨"L1", "a", "T1", "5.0"⟩, ⟨"L2", "b", "T2", "5.0"⟩,
                   ⟨"L3", "a", "T3", "6.0"⟩], []⟩⟩
  else ⟨200, pageNoRecords⟩

/-- Response stream answering every request with HTTP 404. -/
def resp404All : Nat → Response := fun _ => ⟨404, pageNoRecords⟩

/-- Two pages sharing the boundary id `"b"`, for C6's witness. -/
def pageSharedA : List EventRecord :=
  [⟨"L1", "a", "T1", "5.0"⟩, ⟨"L2", "b", "T2", "5.1"⟩]

/-- The follow-up page sharing id `"b"` with `pageSharedA`. -/
def pageSharedB : List EventRecord :=
  [⟨"L2x", "b", "T2x", "5.1"⟩, ⟨"L3", "c", "T3", "5.2"⟩]


/-! ### Spec-side violation predicates (for C7)

These follow the specification's wording for "a supplied field violates its
constraint", with the ordering requirement amended to the strict form the
code enforces: a min/max pair is violating when both are given and
`min < max` fails (so equal values are rejected). -/
def orderedViolation {α : Type} [LinearOrder α] (mn mx : Option α) : Prop :=
  ∃ a b, mn = some a ∧ mx = some b ∧ ¬ a < b

def boundedViolation {α : Type} [LinearOrder α] (v : Option α) (lo hi : α) : Prop :=
  ∃ a, v = some a ∧ (a < lo ∨ hi < a)

def boundedBelowViolation {α : Type} [LinearOrder α] (v : Option α) (lo : α) : Prop :=
  ∃ a, v = some a ∧ a < lo

def allowedValuesViolation (v : Option String) (allowed : List String) : Prop :=
  ∃ s, v = some s ∧ s ∉ allowed

def mutuallyExclusiveViolation {α β : Type} (a : Option α) (b : Option β) : Prop :=
  a.isSome = true ∧ b.isSome = true

def timeViolation (or : Oracles) (v : Option String) : Prop :=
  ∃ s, v = some s ∧ or.isTime s = false

/-- The specification-side characterisation of an invalid query: some
supplied field violates its constraint — a disallowed enum value, an
out-of-range bound, a min/max pair with `min < max` failing, two mutually
exclusive fields both given, or an unparsable time string. -/
def specViolation (or : Oracles) (q : Query) : Prop :=
  allowedValuesViolation q.alertlevel ["green", "yellow", "orange", "red"] ∨
  allowedValuesViolation q.kmlcolorby ["age", "depth"] ∨
  allowedValuesViolation q.reviewstatus ["all", "automatic", "reviewed"] ∨
  boundedViolation q.mingap 0 360 ∨
  boundedViolation q.maxgap 0 360 ∨
  boundedViolation q.mincdi 0 12 ∨
  boundedViolation q.maxcdi 0 12 ∨
  orderedViolation q.mingap q.maxgap ∨
  orderedViolation q.mincdi q.maxcdi ∨
  mutuallyExclusiveViolation q.includedeleted q.includesuperceded ∨
  allowedValuesViolation q.orderby ["time", "time-asc", "magnitude", "magnitude-asc"] ∨
  allowedValuesViolation q.includedeleted ["true", "false", "only"] ∨
  orderedViolation q.minmagnitude q.maxmagnitude ∨
  orderedViolation q.mindepth q.maxdepth ∨
  boundedViolation q.minmagnitude 0 12 ∨
  boundedViolation q.maxmagnitude 0 12 ∨
  boundedBelowViolation q.offset 1 ∨
  boundedBelowViolation q.limit 0 ∨
  mutuallyExclusiveViolation q.maxradius q.maxradiuskm ∨
  boundedViolation q.maxradius 0 180 ∨
  boundedViolation q.maxradiuskm 0 (mkRat 200016 10) ∨
  boundedViolation q.latitude (-90) 90 ∨
  boundedViolation q.longitude (-180) 180 ∨
  boundedViolation q.minlatitude (-90) 90 ∨
  boundedViolation q.maxlatitude (-90) 90 ∨
  boundedViolation q.minlongitude (-360) 360 ∨
  boundedViolation q.maxlongitude (-360) 360 ∨
  orderedViolation q.minlatitude q.maxlatitude ∨
  orderedViolation q.minlongitude q.maxlongitude ∨
  timeViolation or q.starttime ∨
  timeViolation or q.endtime ∨
  timeViolation or q.updatedafter ∨
  allowedValuesViolation q.format ["csv", "text", "geojson", "xml", "quakeml", "xml"]

/-! ### Shared helper lemmas -/

/-- `_execute` returns the first response whose status is not 404 without
further retries. -/
theorem execute_transport_first (resp : Nat → Response) (k : Nat)
    (h : (resp k).status ≠ RESPONSE_NOT_FOUND) :
    execute_transport resp k = (some (resp k), k + 1) := by
  show transportAttempts resp (2 + 1) k = (some (resp k), k + 1)
  rw [transportAttempts]
  simp [h]

/-- `_execute` returns `None` after `MAX_ATTEMPTS` consecutive 404s. -/
theorem execute_transport_exhausted (resp : Nat → Response) (k : Nat)
    (h0 : (resp k).status = RESPONSE_NOT_FOUND)
    (h1 : (resp (k + 1)).status = RESPONSE_NOT_FOUND)
    (h2 : (resp (k + 2)).status = RESPONSE_NOT_FOUND) :
    execute_transport resp k = (none, k + 3) := by
  show transportAttempts resp (2 + 1) k = (none, k + 3)
  rw [transportAttempts]
  simp only [h0, ne_eq, not_true_eq_false, if_false]
  show transportAttempts resp (1 + 1) (k + 1) = (none, k + 3)
  rw [transportAttempts]
  simp only [h1, ne_eq, not_true_eq_false, if_false]
  show transportAttempts resp (0 + 1) (k + 2) = (none, k + 3)
  rw [transportAttempts]
  simp only [h2, ne_eq, not_true_eq_false, if_false]
  rw [transportAttempts]

/-- Inverting `mkQuery` success: the constructed query is the input record. -/
theorem mkQuery_ok {or : Oracles} {q q' : Query} (h : mkQuery or q = Except.ok q') :
    q' = q := by
  unfold mkQuery at h
  split at h
  · simp only [Except.ok.injEq] at h
    exact h.symm
  · cases h

/-- `_next_page` always stores the `limit` it was given into the next query. -/
theorem next_page_limit {or : Oracles} {q : Query} {t m : String} {l : Option ℤ}
    {q' : Query} (h : next_page or q t m l = Except.ok q') : q'.limit = l := by
  unfold next_page at h
  split at h
  · rw [mkQuery_ok h]
  · rw [mkQuery_ok h]
  · split at h
    · cases h
    · rw [mkQuery_ok h]
  · split at h
    · cases h
    · rw [mkQuery_ok h]
  · cases h

/-- Every branch of a loop iteration appends exactly the capped query that was
sent to `_execute` to the request history. -/
theorem loopIter_history (or : Oracles) (resp : Nat → Response) (st : LoopState) :
    (loopIter or resp st).1.history
      = st.history ++ [{ st.query with limit := some (capLimit st.query.limit) }] := by
  simp only [loopIter]
  split
  · rfl
  · split
    · rfl
    · split
      · rfl
      · split
        · split
          · rfl
          · rfl
        · rfl

/-- Inverting a continuing loop iteration: the transport returned a response
with a non-empty record list, and the new query was produced by `_next_page`
from the capped query, the last raw record's time and magnitude, and the
decremented limit. -/
theorem loopIter_ok_true_inv {or : Oracles} {resp : Nat → Response} {st st' : LoopState}
    (h : loopIter or resp st = (st', Except.ok true)) :
    ∃ download q',
      (execute_transport resp st.cursor).1 = some download ∧
      download.page.records ≠ [] ∧
      next_page or { st.query with limit := some (capLimit st.query.limit) }
        ((download.page.records.map EventRecord.eventTime).getLastD "")
        ((download.page.records.map EventRecord.eventMag).getLastD "")
        (match st.query.limit with
          | none => none
          | some l => some (l - (download.page.records.length : ℤ))) = Except.ok q' ∧
      st'.query = q' ∧
      st'.pageIndex = st.pageIndex + 1 := by
  simp only [loopIter] at h
  split at h
  · simp at h
  · rename_i download htr
    split at h
    · simp at h
    · rename_i hstatus
      split at h
      · simp at h
      · rename_i hempty
        split at h
        · split at h
          · simp at h
          · rename_i q' hnp
            have h1 := congrArg Prod.fst h
            dsimp at h1
            subst h1
            refine ⟨download, q', htr, ?_, hnp, rfl, rfl⟩
            intro hrec
            rw [hrec] at hempty
            simp at hempty
        · simp at h

/-- The capped per-request limit never exceeds `UPPER_LIMIT`. -/
theorem capLimit_le (o : Option ℤ) : capLimit o ≤ (UPPER_LIMIT : ℤ) := by
  cases o with
  | none => exact le_refl _
  | some l => exact min_le_right _ _

/-- A query in the history after one iteration is an old entry or the capped
query just sent. -/
theorem mem_loopIter_history {or : Oracles} {resp : Nat → Response} {st : LoopState}
    {q : Query} (h : q ∈ (loopIter or resp st).1.history) :
    q ∈ st.history ∨ q = { st.query with limit := some (capLimit st.query.limit) } := by
  rw [loopIter_history] at h
  rcases List.mem_append.mp h with h | h
  · exact Or.inl h
  · exact Or.inr (List.mem_singleton.mp h)

/-- A continuing iteration of a query without a caller limit again produces a
query without a caller limit. -/
theorem loopIter_ok_true_limit_none {or : Oracles} {resp : Nat → Response}
    {st : LoopState} (hnone : st.query.limit = none)
    (hok : (loopIter or resp st).2 = Except.ok true) :
    (loopIter or resp st).1.query.limit = none := by
  have h : loopIter or resp st = ((loopIter or resp st).1, (loopIter or resp st).2) := rfl
  rw [hok] at h
  obtain ⟨download, q', htr, hne, hnp, hq, hpi⟩ := loopIter_ok_true_inv h
  rw [hq, next_page_limit hnp, hnone]

/-- History invariant: every query the loop ever sends carries a set limit of
at most `UPPER_LIMIT`. -/
theorem runLoop_history_inv (or : Oracles) (resp : Nat → Response) (maxPages : Nat) :
    ∀ (fuel : Nat) (st : LoopState),
      (∀ q ∈ st.history, ∃ l : ℤ, q.limit = some l ∧ l ≤ (UPPER_LIMIT : ℤ)) →
      ∀ q ∈ (runLoop or resp maxPages fuel st).history,
        ∃ l : ℤ, q.limit = some l ∧ l ≤ (UPPER_LIMIT : ℤ) := by
  intro fuel
  induction fuel with
  | zero => intro st hst q hq; exact hst q hq
  | succ n ih =>
    intro st hst q hq
    rw [runLoop] at hq
    split at hq
    · exact hst q hq
    · split at hq
      · rcases mem_loopIter_history hq with h | h
        · exact hst q h
        · exact h ▸ ⟨capLimit st.query.limit, rfl, capLimit_le _⟩
      · refine ih _ ?_ q hq
        intro q2 hq2
        rcases mem_loopIter_history hq2 with h | h
        · exact hst q2 h
        · exact h ▸ ⟨capLimit st.query.limit, rfl, capLimit_le _⟩
      · rcases mem_loopIter_history hq with h | h
        · exact hst q h
        · exact h ▸ ⟨capLimit st.query.limit, rfl, capLimit_le _⟩

/-- History invariant: with no caller limit, every sent query carries exactly
`UPPER_LIMIT`. -/
theorem runLoop_limit_none_inv (or : Oracles) (resp : Nat → Response) (maxPages : Nat) :
    ∀ (fuel : Nat) (st : LoopState),
      st.query.limit = none →
      (∀ q ∈ st.history, q.limit = some (UPPER_LIMIT : ℤ)) →
      ∀ q ∈ (runLoop or resp maxPages fuel st).history,
        q.limit = some (UPPER_LIMIT : ℤ) := by
  intro fuel
  induction fuel with
  | zero => intro st _ hst q hq; exact hst q hq
  | succ n ih =>
    intro st hnone hst q hq
    have hcap : ({ st.query with limit := some (capLimit st.query.limit) } : Query).limit
        = some (UPPER_LIMIT : ℤ) := by
      rw [hnone]; rfl
    rw [runLoop] at hq
    split at hq
    · exact hst q hq
    · split at hq
      · rcases mem_loopIter_history hq with h | h
        · exact hst q h
        · rw [h]; exact hcap
      · rename_i hok
        refine ih _ (loopIter_ok_true_limit_none hnone hok) ?_ q hq
        intro q2 hq2
        rcases mem_loopIter_history hq2 with h | h
        · exact hst q2 h
        · rw [h]; exact hcap
      · rcases mem_loopIter_history hq with h | h
        · exact hst q h
        · rw [h]; exact hcap

/-- A non-empty list all of whose elements equal `m` has the one-element set
`{m}` of distinct values. -/
theorem toFinset_card_one_of_all_eq {l : List String} {m : String} (hne : l ≠ [])
    (h : ∀ x ∈ l, x = m) : l.toFinset.card = 1 := by
  have : l.toFinset = {m} := by
    induction l with
    | nil => cases hne rfl
    | cons a t ih =>
      have ha : a = m := h a (List.mem_cons_self a t)
      by_cases ht : t = []
      · subst ht; simp [ha]
      · rw [List.toFinset_cons, ih ht (fun x hx => h x (List.mem_cons_of_mem _ hx)), ha]
        simp
  rw [this]
  rfl

/-- Under magnitude ordering, a page whose magnitudes are all equal makes
`_check_valid_magnitude_results` stop the loop with the tie warning. -/
theorem mag_check_stops (q1 : Query) {mags : List String} {m : String}
    (hob : q1.orderby = some "magnitude" ∨ q1.orderby = some "magnitude-asc")
    (hne : mags ≠ []) (hall : ∀ x ∈ mags, x = m) :
    check_valid_magnitude_results q1 mags =
      (false,
        ["Page contains only one magnitude value, so cannot determine next page. Exiting loop."]) := by
  have hcard := toFinset_card_one_of_all_eq hne hall
  rcases hob with hob | hob <;>
    simp [check_valid_magnitude_results, hob, hcard] <;> decide

/-- A loop iteration that is stopped by the magnitude-tie check: the response
is returned by the first transport attempt, its records are filtered and
written, the tie warning is logged, and the iteration ends with
`has_next_page = False`. -/
theorem loopIter_stop_shape (or : Oracles) (resp : Nat → Response) (st : LoopState)
    {wmsg : String}
    (h404 : (resp st.cursor).status ≠ RESPONSE_NOT_FOUND)
    (hstatus : (resp st.cursor).status < RESPONSE_BAD_REQUEST)
    (hne : (resp st.cursor).page.records ≠ [])
    (hmagstop : check_valid_magnitude_results
        { st.query with limit := some (capLimit st.query.limit) }
        ((resp st.cursor).page.records.map EventRecord.eventMag) = (false, [wmsg])) :
    loopIter or resp st = ({ st with
      query := { st.query with limit := some (capLimit st.query.limit) },
      cache := (recordFilter st.cache (resp st.cursor).page.records).2,
      results := (st.results ++ (if st.pageIndex = 0 then (resp st.cursor).page.header else []))
        ++ ((recordFilter st.cache (resp st.cursor).page.records).1.map EventRecord.line),
      footer := (resp st.cursor).page.footer,
      cursor := st.cursor + 1,
      history := st.history ++ [{ st.query with limit := some (capLimit st.query.limit) }],
      warnings := st.warnings
        ++ (if (recordFilter st.cache (resp st.cursor).page.records).1.length
              < (resp st.cursor).page.records.length then ["duplicate_events"] else [])
        ++ (check_filtered_results (recordFilter st.cache (resp st.cursor).page.records).1
              (resp st.cursor).page.records).2
        ++ [wmsg] },
      Except.ok false) := by
  have hempty : (resp st.cursor).page.records.isEmpty = false := by
    cases hrec : (resp st.cursor).page.records with
    | nil => exact absurd hrec hne
    | cons a t => rfl
  simp only [loopIter, execute_transport_first resp st.cursor h404, hmagstop,
    hempty, not_le.mpr hstatus, if_false, Bool.false_eq_true]

/-- Claim C1 (as stated): if a page's raw record count is strictly below
`UPPER_LIMIT`, pagination stops after that page and no further request is
issued.  The code computes that decision in `_check_filtered_results` (and
even logs "Written last page, exiting loop") but line 119 of `client.py`
immediately overwrites `has_next_page` with the magnitude check, so the loop
issues a second request: on a stream whose first page has one raw record
(1 < 20000), two requests appear in the history. -/
theorem c1_short_page_still_requests_next_page :
    (respShortPage 0).page.records.length < UPPER_LIMIT ∧
    (execute_paginiated oracleTrue respShortPage 10 {}).history.length = 2 ∧
    "Written last page, exiting loop"
      ∈ (execute_paginiated oracleTrue respShortPage 10 {}).warnings := by
  decide

/-- Claim C4 (as stated): a page on which duplicate removal leaves zero surviving
records ends the pagination with no further fetch.  In the code the `False`
from `_check_filtered_results` (which logs "No new records found on page,
exiting loop") is overwritten by the magnitude check, so a third request is
issued after the all-duplicates second page. -/
theorem c4_zero_survivors_still_requests_next_page :
    (execute_paginiated oracleTrue respAllDup 10 {}).history.length = 3 ∧
    "No new records found on page, exiting loop"
      ∈ (execute_paginiated oracleTrue respAllDup 10 {}).warnings := by
  decide

/-- Claim C2 counterexample: the claim says the cursor advances to the last
*surviving* record's value.  On a page with ids `a`, `b`, `a` the last
surviving record has time `"T2"`, but the second request's `endtime` is
`"T3"` — the last *raw* record's time. -/
theorem c2_counterexample_cursor_uses_raw_last_record :
    ((execute_paginiated oracleTrue respDupTail 10 {}).history.map Query.endtime
      = [none, some "T3"]) ∧
    ((recordFilter (Cache.empty (some UPPER_LIMIT)) (respDupTail 0).page.records).1.map
        EventRecord.eventTime = ["T1", "T2"]) ∧
    ("T3" : String) ≠ "T2" := by
  decide

/-- Claim C2 (amended): for every page that must be continued, the next query
is the current one with exactly one cursor field set by ordering mode —
`endtime` for `orderby` unset or `"time"`, `starttime` for `"time-asc"`,
`maxmagnitude` for `"magnitude"`, `minmagnitude` for `"magnitude-asc"` —
taken from the last *raw* record of the page (the magnitude string going
through the `float()` cast), with the caller's remaining limit (when not
`None`) decremented by the page's raw record count, and all other fields
unchanged. -/
theorem c2_next_query_cursor_fields (or : Oracles) (resp : Nat → Response)
    (st st' : LoopState)
    (hok404 : (resp st.cursor).status ≠ RESPONSE_NOT_FOUND)
    (hstep : loopIter or resp st = (st', Except.ok true)) :
    (st.query.orderby = none ∨ st.query.orderby = some "time" →
      st'.query = { st.query with
        endtime := some (((resp st.cursor).page.records.map EventRecord.eventTime).getLastD ""),
        limit := st.query.limit.map (fun l => l - ((resp st.cursor).page.records.length : ℤ)) }) ∧
    (st.query.orderby = some "time-asc" →
      st'.query = { st.query with
        starttime := some (((resp st.cursor).page.records.map EventRecord.eventTime).getLastD ""),
        limit := st.query.limit.map (fun l => l - ((resp st.cursor).page.records.length : ℤ)) }) ∧
    (st.query.orderby = some "magnitude" → ∃ v,
      or.toFloat (((resp st.cursor).page.records.map EventRecord.eventMag).getLastD "") = some v ∧
      st'.query = { st.query with
        maxmagnitude := some v,
        limit := st.query.limit.map (fun l => l - ((resp st.cursor).page.records.length : ℤ)) }) ∧
    (st.query.orderby = some "magnitude-asc" → ∃ v,
      or.toFloat (((resp st.cursor).page.records.map EventRecord.eventMag).getLastD "") = some v ∧
      st'.query = { st.query with
        minmagnitude := some v,
        limit := st.query.limit.map (fun l => l - ((resp st.cursor).page.records.length : ℤ)) }) := by
  obtain ⟨download, q', htr, hne, hnp, hq, hpi⟩ := loopIter_ok_true_inv hstep
  rw [execute_transport_first resp st.cursor hok404] at htr
  simp only [Option.some.injEq] at htr
  subst htr
  refine ⟨?_, ?_, ?_, ?_⟩
  · intro hob
    have hgetd : (({ st.query with limit := some (capLimit st.query.limit) } : Query).orderby.getD
        "time") = "time" := by
      rcases hob with hob | hob <;> simp [hob]
    unfold next_page at hnp
    rw [hgetd] at hnp
    simp only [] at hnp
    have hq' := mkQuery_ok hnp
    rw [hq, hq']
    cases st.query.limit <;> rfl
  · intro hob
    have hgetd : (({ st.query with limit := some (capLimit st.query.limit) } : Query).orderby.getD
        "time") = "time-asc" := by
      simp [hob]
    unfold next_page at hnp
    rw [hgetd] at hnp
    simp only [] at hnp
    have hq' := mkQuery_ok hnp
    rw [hq, hq']
    cases st.query.limit <;> rfl
  · intro hob
    have hgetd : (({ st.query with limit := some (capLimit st.query.limit) } : Query).orderby.getD
        "time") = "magnitude" := by
      simp [hob]
    unfold next_page at hnp
    rw [hgetd] at hnp
    simp only [] at hnp
    cases htf : or.toFloat (((resp st.cursor).page.records.map EventRecord.eventMag).getLastD "") with
    | none => rw [htf] at hnp; cases hnp
    | some v =>
      rw [htf] at hnp
      have hq' := mkQuery_ok hnp
      refine ⟨v, rfl, ?_⟩
      rw [hq, hq']
      cases st.query.limit <;> rfl
  · intro hob
    have hgetd : (({ st.query with limit := some (capLimit st.query.limit) } : Query).orderby.getD
        "time") = "magnitude-asc" := by
      simp [hob]
    unfold next_page at hnp
    rw [hgetd] at hnp
    simp only [] at hnp
    cases htf : or.toFloat (((resp st.cursor).page.records.map EventRecord.eventMag).getLastD "") with
    | none => rw [htf] at hnp; cases hnp
    | some v =>
      rw [htf] at hnp
      have hq' := mkQuery_ok hnp
      refine ⟨v, rfl, ?_⟩
      rw [hq, hq']
      cases st.query.limit <;> rfl

/-- Claim C3: under magnitude ordering, a first page whose records all share
one magnitude value stops pagination after that page (one request in the
history), without an error (the run returns `ok` with header, the page's
filtered records, and footer), and with the tie warning logged. -/
theorem c3_magnitude_tie_stops_without_error (or : Oracles) (resp : Nat → Response)
    (maxPages : Nat) (q : Query) (m : String)
    (hmp : 1 ≤ maxPages)
    (hob : q.orderby = some "magnitude" ∨ q.orderby = some "magnitude-asc")
    (hstatus : (resp 0).status < RESPONSE_BAD_REQUEST)
    (hne : (resp 0).page.records ≠ [])
    (hmag : ∀ r ∈ (resp 0).page.records, r.eventMag = m) :
    (execute_paginiated or resp maxPages q).result
      = Except.ok ((resp 0).page.header
          ++ ((recordFilter (Cache.empty (some UPPER_LIMIT)) (resp 0).page.records).1.map
                EventRecord.line)
          ++ (resp 0).page.footer) ∧
    (execute_paginiated or resp maxPages q).history.length = 1 ∧
    "Page contains only one magnitude value, so cannot determine next page. Exiting loop."
      ∈ (execute_paginiated or resp maxPages q).warnings := by
  have h404 : (resp 0).status ≠ RESPONSE_NOT_FOUND := by
    intro hx
    rw [hx] at hstatus
    exact absurd hstatus (by decide)
  have hmags_ne : (resp 0).page.records.map EventRecord.eventMag ≠ [] := by
    simpa using hne
  have hall : ∀ x ∈ (resp 0).page.records.map EventRecord.eventMag, x = m := by
    intro x hx
    rcases List.mem_map.mp hx with ⟨r, hr, rfl⟩
    exact hmag r hr
  have hmagstop := mag_check_stops
    { q with limit := some (capLimit q.limit) } hob hmags_ne hall
  have hstop := loopIter_stop_shape or resp (initState q) h404 hstatus hne hmagstop
  have hrun : execute_paginiated or resp maxPages q
      = finishRun ((loopIter or resp (initState q)).1) := by
    rw [execute_paginiated, runLoop]
    rw [if_neg (by simp [initState]; omega)]
    simp only [hstop]
  rw [hrun, hstop]
  refine ⟨by simp [finishRun, initState], by simp [finishRun, initState], ?_⟩
  simp [finishRun, initState]

/-- Claim C8: a fetch whose first `MAX_ATTEMPTS` responses are all HTTP 404
fails with an error (the exhausted retry loop returns `None`, and the
subsequent `download.ok` access raises), never an empty success; and a
response with any status other than 404 is returned immediately, consuming
exactly one transport attempt. -/
theorem c8_retry_budget_and_no_retry_on_non_404 :
    (∀ (or : Oracles) (resp : Nat → Response) (maxPages : Nat) (q : Query),
      1 ≤ maxPages →
      (resp 0).status = RESPONSE_NOT_FOUND →
      (resp 1).status = RESPONSE_NOT_FOUND →
      (resp 2).status = RESPONSE_NOT_FOUND →
      ∃ e, (execute_paginiated or resp maxPages q).result = Except.error e) ∧
    (∀ (resp : Nat → Response) (k : Nat),
      (resp k).status ≠ RESPONSE_NOT_FOUND →
      execute_transport resp k = (some (resp k), k + 1)) := by
  constructor
  · intro or resp maxPages q hmp h0 h1 h2
    have hex := execute_transport_exhausted resp 0 h0 h1 h2
    have hiter : (loopIter or resp (initState q)).2
        = Except.error "AttributeError: NoneType object has no attribute ok" := by
      simp only [loopIter, initState, hex]
    rw [execute_paginiated, runLoop]
    rw [if_neg (by simp [initState]; omega)]
    refine ⟨"AttributeError: NoneType object has no attribute ok", ?_⟩
    simp only [hiter]
  · intro resp k h
    exact execute_transport_first resp k h

/-- Claim C7 counterexample: the claim says construction succeeds when a
min/max pair has equal values, but `assert_fields_ordered` requires strict
`min < max`, so `Query(minmagnitude=5, maxmagnitude=5)` raises. -/
theorem c7_counterexample_min_equals_max_rejected :
    mkQuery oracleTrue { minmagnitude := some 5, maxmagnitude := some 5 }
      = Except.error "AssertionError: invalid query" := by
  rfl

/-- Claim C5: every request the paginated fetch sends carries a set `limit`
of at most `UPPER_LIMIT`; when the caller gave no limit, every request
carries exactly `UPPER_LIMIT`; and before each fetch the sent query is the
current one with `limit` set to `capLimit` — `UPPER_LIMIT` when the current
limit is `None`, `min(limit, UPPER_LIMIT)` otherwise. -/
theorem c5_request_limit_always_capped (or : Oracles) (resp : Nat → Response)
    (maxPages : Nat) (q : Query) :
    (∀ q' ∈ (execute_paginiated or resp maxPages q).history,
      ∃ l : ℤ, q'.limit = some l ∧ l ≤ (UPPER_LIMIT : ℤ)) ∧
    (q.limit = none →
      ∀ q' ∈ (execute_paginiated or resp maxPages q).history,
        q'.limit = some (UPPER_LIMIT : ℤ)) ∧
    (∀ st : LoopState, (loopIter or resp st).1.history
      = st.history ++ [{ st.query with limit := some (capLimit st.query.limit) }]) := by
  refine ⟨?_, ?_, fun st => loopIter_history or resp st⟩
  · exact runLoop_history_inv or resp maxPages (maxPages + 1) (initState q)
      (by intro q2 hq2; simp [initState] at hq2)
  · intro hnone
    exact runLoop_limit_none_inv or resp maxPages (maxPages + 1) (initState q) hnone
      (by intro q2 hq2; simp [initState] at hq2)

/-- Witness for C5 at a concrete two-page run with no caller limit. -/
theorem c5_witness :
    (({} : Query).limit = none) ∧
    ((execute_paginiated oracleTrue respShortPage 10 {}).history.getLastD {}).limit
        = some (UPPER_LIMIT : ℤ) :=
  ⟨rfl,
   (c5_request_limit_always_capped oracleTrue respShortPage 10 {}).2.1 rfl _ (by decide)⟩

/-- Witness for the amended C2 at a concrete continuing page under default
(time-descending) ordering. -/
theorem c2_next_query_cursor_fields_witness :
    (respDupTail (initState ({} : Query)).cursor).status ≠ RESPONSE_NOT_FOUND ∧
    (loopIter oracleTrue respDupTail (initState {})).1.query
      = { (initState ({} : Query)).query with
          endtime := some ((((respDupTail (initState ({} : Query)).cursor).page.records).map
              EventRecord.eventTime).getLastD ""),
          limit := ((initState ({} : Query)).query.limit).map
            (fun l => l - (((respDupTail (initState ({} : Query)).cursor).page.records).length : ℤ)) } :=
  ⟨by decide,
   (c2_next_query_cursor_fields oracleTrue respDupTail (initState {})
      ((loopIter oracleTrue respDupTail (initState {})).1)
      (by decide) (by rfl)).1 (Or.inl rfl)⟩

/-- Witness for C3 at a concrete one-page magnitude tie. -/
theorem c3_magnitude_tie_stops_without_error_witness :
    (execute_paginiated oracleTrue respMagTie 10 { orderby := some "magnitude" }).result
      = Except.ok ((respMagTie 0).page.header
          ++ ((recordFilter (Cache.empty (some UPPER_LIMIT)) (respMagTie 0).page.records).1.map
                EventRecord.line)
          ++ (respMagTie 0).page.footer) ∧
    (execute_paginiated oracleTrue respMagTie 10
        { orderby := some "magnitude" }).history.length = 1 ∧
    "Page contains only one magnitude value, so cannot determine next page. Exiting loop."
      ∈ (execute_paginiated oracleTrue respMagTie 10 { orderby := some "magnitude" }).warnings :=
  c3_magnitude_tie_stops_without_error oracleTrue respMagTie 10 { orderby := some "magnitude" }
    "5.0" (by decide) (Or.inl rfl) (by decide) (by decide) (by decide)

/-- Witness for C8: an all-404 stream errors; a 200 response at stream
position 5 is returned consuming one attempt. -/
theorem c8_retry_budget_witness :
    (∃ e, (execute_paginiated oracleTrue resp404All 10 {}).result = Except.error e) ∧
    execute_transport respShortPage 5 = (some (respShortPage 5), 6) :=
  ⟨c8_retry_budget_and_no_retry_on_non_404.1 oracleTrue resp404All 10 {} (by decide) rfl rfl rfl,
   c8_retry_budget_and_no_retry_on_non_404.2 respShortPage 5 (by decide)⟩

/-- The record filter distributes over page concatenation: filtering two
pages in sequence is filtering their concatenation. -/
theorem recordFilter_append (c : Cache) (l1 l2 : List EventRecord) :
    recordFilter c (l1 ++ l2)
      = ((recordFilter c l1).1 ++ (recordFilter (recordFilter c l1).2 l2).1,
         (recordFilter (recordFilter c l1).2 l2).2) := by
  induction l1 generalizing c with
  | nil => simp [recordFilter]
  | cons r t ih =>
    simp only [List.cons_append, recordFilter]
    by_cases h : c.containsId r.eventId = true
    · simp [h, ih]
    · simp only [Bool.not_eq_true] at h
      simp [h, ih]

/-- As long as the distinct ids seen fit within `maxlen`, the filter's cache
never evicts: the stash accumulates exactly the kept (first-occurrence) ids
in order, stays duplicate-free, agrees with the registry, and contains an id
iff it was in the cache before or occurs in the processed records. -/
theorem recordFilter_no_evict {m : Nat} :
    ∀ (recs : List EventRecord) (c : Cache),
      c.maxlen = some m →
      c.registry = c.stash.toFinset →
      c.stash.Nodup →
      (c.stash.toFinset ∪ (recs.map EventRecord.eventId).toFinset).card ≤ m →
      (recordFilter c recs).2.stash
          = c.stash ++ ((recordFilter c recs).1.map EventRecord.eventId) ∧
      (recordFilter c recs).2.stash.Nodup ∧
      (recordFilter c recs).2.registry = (recordFilter c recs).2.stash.toFinset ∧
      (∀ y, y ∈ (recordFilter c recs).2.stash ↔
        y ∈ c.stash ∨ y ∈ recs.map EventRecord.eventId) := by
  intro recs
  induction recs with
  | nil =>
    intro c hm hreg hnd hcard
    simp [recordFilter, hreg, hnd]
  | cons r t ih =>
    intro c hm hreg hnd hcard
    by_cases hdup : r.eventId ∈ c.registry
    · have hfeq : recordFilter c (r :: t) = recordFilter c t := by
        simp [recordFilter, Cache.containsId, hdup]
      have hmem : r.eventId ∈ c.stash := by
        rw [hreg] at hdup
        exact List.mem_toFinset.mp hdup
      have hcard' : (c.stash.toFinset ∪ (t.map EventRecord.eventId).toFinset).card ≤ m := by
        refine le_trans (Finset.card_le_card ?_) hcard
        intro y hy
        simp only [Finset.mem_union, List.map_cons, List.toFinset_cons, Finset.mem_insert] at hy ⊢
        tauto
      obtain ⟨h1, h2, h3, h4⟩ := ih c hm hreg hnd hcard'
      rw [hfeq]
      refine ⟨h1, h2, h3, ?_⟩
      intro y
      rw [h4 y]
      simp only [List.map_cons, List.mem_cons]
      constructor
      · tauto
      · rintro (hy | rfl | hy)
        · exact Or.inl hy
        · exact Or.inl hmem
        · exact Or.inr hy
    · have hcont : c.containsId r.eventId = false := by
        simp [Cache.containsId, hdup]
      have hrid_notstash : r.eventId ∉ c.stash := fun hx =>
        hdup (hreg ▸ List.mem_toFinset.mpr hx)
      have hlen : c.stash.length < m := by
        have hsub : insert r.eventId c.stash.toFinset ⊆
            c.stash.toFinset ∪ ((r :: t).map EventRecord.eventId).toFinset := by
          intro y hy
          rcases Finset.mem_insert.mp hy with rfl | hy
          · apply Finset.mem_union_right
            simp
          · exact Finset.mem_union_left _ hy
        have h2 := le_trans (Finset.card_le_card hsub) hcard
        rw [Finset.card_insert_of_not_mem
          (fun hx => hrid_notstash (List.mem_toFinset.mp hx))] at h2
        rw [List.toFinset_card_of_nodup hnd] at h2
        omega
      have hlenne : (c.stash.length == m) = false :=
        beq_eq_false_iff_ne.mpr (Nat.ne_of_lt hlen)
      have happend : c.append r.eventId
          = ⟨c.stash ++ [r.eventId], insert r.eventId c.registry, some m⟩ := by
        unfold Cache.append
        rw [hm]
        simp only [maxlenTruthy, Option.getD, hlenne]
        simp only [Bool.and_false, Bool.false_eq_true, if_false]
        simp [dequeAppend, hm]
        omega
      have hreg1 : (insert r.eventId c.registry : Finset String)
          = (c.stash ++ [r.eventId]).toFinset := by
        rw [hreg]
        ext y
        simp [or_comm]
      have hnd1 : (c.stash ++ [r.eventId]).Nodup := by
        simp [List.nodup_append, hnd, hrid_notstash]
      have hcard1 : ((c.stash ++ [r.eventId]).toFinset
          ∪ (t.map EventRecord.eventId).toFinset).card ≤ m := by
        have heq : (c.stash ++ [r.eventId]).toFinset ∪ (t.map EventRecord.eventId).toFinset
            = c.stash.toFinset ∪ ((r :: t).map EventRecord.eventId).toFinset := by
          ext y
          simp
          tauto
        rw [heq]
        exact hcard
      obtain ⟨h1, h2, h3, h4⟩ := ih
        ⟨c.stash ++ [r.eventId], insert r.eventId c.registry, some m⟩ rfl hreg1 hnd1 hcard1
      have hfeq : recordFilter c (r :: t)
          = (r :: (recordFilter
                ⟨c.stash ++ [r.eventId], insert r.eventId c.registry, some m⟩ t).1,
             (recordFilter
                ⟨c.stash ++ [r.eventId], insert r.eventId c.registry, some m⟩ t).2) := by
        rw [recordFilter]
        rw [hcont]
        rw [happend]
        simp
      rw [hfeq]
      refine ⟨?_, h2, h3, ?_⟩
      · rw [h1]
        simp
      · intro y
        rw [h4 y]
        simp
        tauto

/-- Claim C6: for two pages sharing a boundary event id, running the record
filter over both pages in sequence yields exactly one occurrence of that id
in the merged output, provided the distinct ids of the two pages fit within
the filter's window of `maxlen` ids (so the shared id is still in the
sliding window at its second occurrence). -/
theorem c6_boundary_duplicate_dropped_once (m : Nat) (p1 p2 : List EventRecord) (x : String)
    (hx1 : x ∈ p1.map EventRecord.eventId)
    (hx2 : x ∈ p2.map EventRecord.eventId)
    (hcard : ((p1 ++ p2).map EventRecord.eventId).toFinset.card ≤ m) :
    (((recordFilter (Cache.empty (some m)) p1).1
        ++ (recordFilter (recordFilter (Cache.empty (some m)) p1).2 p2).1).map
      EventRecord.eventId).count x = 1 := by
  have happ := recordFilter_append (Cache.empty (some m)) p1 p2
  have hk : (recordFilter (Cache.empty (some m)) (p1 ++ p2)).1
      = (recordFilter (Cache.empty (some m)) p1).1
        ++ (recordFilter (recordFilter (Cache.empty (some m)) p1).2 p2).1 :=
    congrArg Prod.fst happ
  obtain ⟨h1, h2, h3, h4⟩ := recordFilter_no_evict (p1 ++ p2) (Cache.empty (some m)) rfl
    (by simp [Cache.empty]) (by simp [Cache.empty]) (by simpa [Cache.empty] using hcard)
  have hstash : (recordFilter (Cache.empty (some m)) (p1 ++ p2)).2.stash
      = ((recordFilter (Cache.empty (some m)) (p1 ++ p2)).1.map EventRecord.eventId) := by
    simpa [Cache.empty] using h1
  rw [← hk, ← hstash]
  apply List.count_eq_one_of_mem
  · exact hstash ▸ h2
  · refine (h4 x).mpr (Or.inr ?_)
    rw [List.map_append]
    exact List.mem_append_left _ hx1

/-- Witness for C6 on two concrete pages sharing id `"b"`. -/
theorem c6_boundary_duplicate_dropped_once_witness :
    (((recordFilter (Cache.empty (some UPPER_LIMIT)) pageSharedA).1
        ++ (recordFilter (recordFilter (Cache.empty (some UPPER_LIMIT)) pageSharedA).2
              pageSharedB).1).map
      EventRecord.eventId).count "b" = 1 :=
  c6_boundary_duplicate_dropped_once UPPER_LIMIT pageSharedA pageSharedB "b"
    (by decide) (by decide) (by decide)

/-- Cache invariant under arbitrary append/pop sequences of pairwise
distinct appended values: registry = set of stash elements, stash
duplicate-free, and stash length bounded by `maxlen`. -/
theorem runOps_inv {m : Nat} (hm1 : 1 ≤ m) :
    ∀ (ops : List CacheOp) (c : Cache) (prev : List String),
      c.maxlen = some m →
      c.registry = c.stash.toFinset →
      c.stash.Nodup →
      c.stash.length ≤ m →
      (∀ y ∈ c.stash, y ∈ prev) →
      (prev ++ appendedVals ops).Nodup →
      ∀ c', runOps c ops = some c' →
        c'.registry = c'.stash.toFinset ∧ c'.stash.Nodup ∧ c'.stash.length ≤ m := by
  intro ops
  induction ops with
  | nil =>
    intro c prev hm hreg hnd hlen hsub hprevnd c' hrun
    simp only [runOps, Option.some.injEq] at hrun
    subst hrun
    exact ⟨hreg, hnd, hlen⟩
  | cons op rest ih =>
    intro c prev hm hreg hnd hlen hsub hprevnd c' hrun
    cases op with
    | append v =>
      simp only [runOps] at hrun
      have hvprev : v ∉ prev := by
        have h1 : (appendedVals (CacheOp.append v :: rest)) = v :: appendedVals rest := rfl
        rw [h1, List.nodup_append] at hprevnd
        intro hv
        exact (hprevnd.2.2 hv) (List.mem_cons_self v _)
      have hvstash : v ∉ c.stash := fun hv => hvprev (hsub v hv)
      by_cases hfull : c.stash.length = m
      · cases hst : c.stash with
        | nil =>
          have h0 : c.stash.length = 0 := by rw [hst]; rfl
          omega
        | cons a t =>
          have happ : c.append v = ⟨t ++ [v], insert v (c.registry.erase a), some m⟩ := by
            have hmne : (m != 0) = true := by
              simp
              omega
            have htlen : t.length + 1 = m := by
              rw [hst] at hfull
              simpa using hfull
            simp [Cache.append, hm, maxlenTruthy, hmne, hfull, hst, dequeAppend, htlen]
          have hat : a ∉ t := (List.nodup_cons.mp (hst ▸ hnd)).1
          have hregerase : c.registry.erase a = t.toFinset := by
            rw [hreg, hst]
            rw [List.toFinset_cons]
            exact Finset.erase_insert (fun hx => hat (List.mem_toFinset.mp hx))
          have hreg1 : (insert v (c.registry.erase a) : Finset String)
              = (t ++ [v]).toFinset := by
            rw [hregerase]
            ext y
            simp [or_comm]
          have hnd1 : (t ++ [v]).Nodup := by
            have hvt : v ∉ t := fun hv => hvstash (hst ▸ List.mem_cons_of_mem a hv)
            simp [List.nodup_append, (List.nodup_cons.mp (hst ▸ hnd)).2, hvt]
          have hlen1 : (t ++ [v]).length ≤ m := by
            rw [hst] at hfull
            simp at hfull ⊢
            omega
          have hsub1 : ∀ y ∈ t ++ [v], y ∈ prev ++ [v] := by
            intro y hy
            rcases List.mem_append.mp hy with hy | hy
            · exact List.mem_append_left _ (hsub y (hst ▸ List.mem_cons_of_mem a hy))
            · exact List.mem_append_right _ hy
          have hprevnd1 : ((prev ++ [v]) ++ appendedVals rest).Nodup := by
            rw [List.append_assoc]
            exact hprevnd
          rw [happ] at hrun
          exact ih ⟨t ++ [v], insert v (c.registry.erase a), some m⟩ (prev ++ [v])
            rfl hreg1 hnd1 hlen1 hsub1 hprevnd1 c' hrun
      · have hlt : c.stash.length < m := Nat.lt_of_le_of_ne hlen hfull
        have happ : c.append v = ⟨c.stash ++ [v], insert v c.registry, some m⟩ := by
          have hlenne : (c.stash.length == m) = false := beq_eq_false_iff_ne.mpr hfull
          simp [Cache.append, hm, maxlenTruthy, hlenne, dequeAppend]
          all_goals omega
        have hreg1 : (insert v c.registry : Finset String) = (c.stash ++ [v]).toFinset := by
          rw [hreg]
          ext y
          simp [or_comm]
        have hnd1 : (c.stash ++ [v]).Nodup := by
          simp [List.nodup_append, hnd, hvstash]
        have hlen1 : (c.stash ++ [v]).length ≤ m := by
          simp
          omega
        have hsub1 : ∀ y ∈ c.stash ++ [v], y ∈ prev ++ [v] := by
          intro y hy
          rcases List.mem_append.mp hy with hy | hy
          · exact List.mem_append_left _ (hsub y hy)
          · exact List.mem_append_right _ hy
        have hprevnd1 : ((prev ++ [v]) ++ appendedVals rest).Nodup := by
          rw [List.append_assoc]
          exact hprevnd
        rw [happ] at hrun
        exact ih ⟨c.stash ++ [v], insert v c.registry, some m⟩ (prev ++ [v])
          rfl hreg1 hnd1 hlen1 hsub1 hprevnd1 c' hrun
    | pop =>
      simp only [runOps] at hrun
      cases hpr : c.popRight with
      | none => rw [hpr] at hrun; cases hrun
      | some vc =>
        rw [hpr] at hrun
        obtain ⟨v, c2⟩ := vc
        unfold Cache.popRight at hpr
        cases hgl : c.stash.getLast? with
        | none => rw [hgl] at hpr; cases hpr
        | some w =>
          rw [hgl] at hpr
          simp only [Option.some.injEq, Prod.mk.injEq] at hpr
          obtain ⟨hvw, hc2⟩ := hpr
          rw [hvw] at hc2
          rw [hvw] at hgl
          subst hc2
          have hsplit : c.stash.dropLast ++ [v] = c.stash :=
            List.dropLast_append_getLast? v (by rw [hgl]; rfl)
          have hvdrop : v ∉ c.stash.dropLast := by
            intro hv
            have := hsplit ▸ hnd
            rw [List.nodup_append] at this
            exact this.2.2 hv (List.mem_cons_self v [])
          have hreg2 : c.registry.erase v = c.stash.dropLast.toFinset := by
            rw [hreg]
            ext y
            constructor
            · intro hy
              obtain ⟨hyne, hymem⟩ := Finset.mem_erase.mp hy
              have hmem2 : y ∈ c.stash := List.mem_toFinset.mp hymem
              rw [← hsplit] at hmem2
              rcases List.mem_append.mp hmem2 with hy2 | hy2
              · exact List.mem_toFinset.mpr hy2
              · simp at hy2
                exact absurd hy2 hyne
            · intro hy
              refine Finset.mem_erase.mpr ⟨?_, ?_⟩
              · intro heq
                exact hvdrop (heq ▸ List.mem_toFinset.mp hy)
              · refine List.mem_toFinset.mpr ?_
                rw [← hsplit]
                exact List.mem_append_left _ (List.mem_toFinset.mp hy)
          have hnd2 : c.stash.dropLast.Nodup := by
            have := hsplit ▸ hnd
            exact (List.nodup_append.mp this).1
          have hlen2 : c.stash.dropLast.length ≤ m := by
            have h1 := congrArg List.length hsplit
            rw [List.length_append] at h1
            simp only [List.length_singleton] at h1
            omega
          have hsub2 : ∀ y ∈ c.stash.dropLast, y ∈ prev := by
            intro y hy
            refine hsub y ?_
            rw [← hsplit]
            exact List.mem_append_left _ hy
          have hprevnd2 : (prev ++ appendedVals rest).Nodup := by
            have h1 : (appendedVals (CacheOp.pop :: rest)) = appendedVals rest := rfl
            rw [h1] at hprevnd
            exact hprevnd
          exact ih ⟨c.stash.dropLast, c.registry.erase v, c.maxlen⟩ prev
            (by simpa using hm) hreg2 hnd2 hlen2 hsub2 hprevnd2 c' hrun

/-- Claim C9: for the record filter's recency cache, after any sequence of
append and pop operations on distinct values (run from empty with a positive
`maxlen`, as `RecordFilter([], maxlen=UPPER_LIMIT)` does), the membership
registry equals the set of elements in the deque and the deque never exceeds
`maxlen`. -/
theorem c9_cache_registry_matches_stash (m : Nat) (hm1 : 1 ≤ m) (ops : List CacheOp)
    (c' : Cache) (hnd : (appendedVals ops).Nodup)
    (hrun : runOps (Cache.empty (some m)) ops = some c') :
    c'.registry = c'.stash.toFinset ∧ c'.stash.length ≤ m := by
  have h := runOps_inv hm1 ops (Cache.empty (some m)) [] rfl (by simp [Cache.empty])
    (by simp [Cache.empty]) (by simp [Cache.empty]) (by simp [Cache.empty])
    (by simpa using hnd) c' hrun
  exact ⟨h.1, h.2.2⟩

/-- Witness for C9 on a concrete op sequence that exercises eviction and
pop. -/
theorem c9_cache_registry_matches_stash_witness :
    ((runOps (Cache.empty (some 2))
        [CacheOp.append "a", CacheOp.append "b", CacheOp.append "c", CacheOp.pop]).getD
      (Cache.empty (some 2))).registry
      = ((runOps (Cache.empty (some 2))
            [CacheOp.append "a", CacheOp.append "b", CacheOp.append "c", CacheOp.pop]).getD
          (Cache.empty (some 2))).stash.toFinset ∧
    ((runOps (Cache.empty (some 2))
        [CacheOp.append "a", CacheOp.append "b", CacheOp.append "c", CacheOp.pop]).getD
      (Cache.empty (some 2))).stash.length ≤ 2 :=
  c9_cache_registry_matches_stash 2 (by decide)
    [CacheOp.append "a", CacheOp.append "b", CacheOp.append "c", CacheOp.pop] _
    (by decide) (by rfl)
/-- The ordering assertion passes iff the pair is not violating. -/
theorem assert_fields_ordered_eq_true_iff {α : Type} [LinearOrder α] (mn mx : Option α) :
    assert_fields_ordered mn mx = true ↔ ¬ orderedViolation mn mx := by
  cases mn <;> cases mx <;> simp [assert_fields_ordered, orderedViolation]

/-- The two-sided bound assertion passes iff the field is not out of range. -/
theorem assert_field_bounded_eq_true_iff {α : Type} [LinearOrder α] (v : Option α)
    (lo hi : α) :
    assert_field_bounded v (some lo) (some hi) = true ↔ ¬ boundedViolation v lo hi := by
  cases v <;> simp [assert_field_bounded, boundedViolation, not_or, not_lt]

/-- The lower-bound-only assertion passes iff the field is not below it. -/
theorem assert_field_bounded_lower_eq_true_iff {α : Type} [LinearOrder α] (v : Option α)
    (lo : α) :
    assert_field_bounded v (some lo) none = true ↔ ¬ boundedBelowViolation v lo := by
  cases v <;> simp [assert_field_bounded, boundedBelowViolation, not_lt]

/-- The enum assertion passes iff the value is not disallowed. -/
theorem assert_field_allowed_values_eq_true_iff (v : Option String) (allowed : List String) :
    assert_field_allowed_values v allowed = true ↔ ¬ allowedValuesViolation v allowed := by
  cases v <;> simp [assert_field_allowed_values, allowedValuesViolation]

/-- The exclusivity assertion passes iff the fields are not both given. -/
theorem assert_fields_mutually_exclusive_eq_true_iff {α β : Type}
    (a : Option α) (b : Option β) :
    assert_fields_mutually_exclusive a b = true ↔ ¬ mutuallyExclusiveViolation a b := by
  cases a <;> cases b <;> simp [assert_fields_mutually_exclusive, mutuallyExclusiveViolation]

/-- The time check passes iff the time string is not rejected. -/
theorem check_time_field_is_valid_eq_true_iff (or : Oracles) (v : Option String) :
    check_time_field_is_valid or v = true ↔ ¬ timeViolation or v := by
  cases v <;> simp [check_time_field_is_valid, timeViolation]


/-- Claim C7 (amended): `Query` construction raises a validation error if and
only if a supplied field violates its constraint, where a min/max pair is
violating already when `min = max` (the check is strictly `min < max`);
in particular `latitude = 90` is accepted (inclusive boundary),
`latitude = 90.0001` is rejected, both radius forms together are rejected,
and `minmagnitude = maxmagnitude = 5` is rejected. -/
theorem c7_validation_error_iff_violation :
    (∀ (or : Oracles) (q : Query), queryValid or q = true ↔ ¬ specViolation or q) ∧
    queryValid oracleTrue { latitude := some 90 } = true ∧
    queryValid oracleTrue { latitude := some (mkRat 900001 10000) } = false ∧
    queryValid oracleTrue { maxradius := some 10, maxradiuskm := some 20 } = false ∧
    queryValid oracleTrue { minmagnitude := some 5, maxmagnitude := some 5 } = false := by
  refine ⟨?_, by decide, by decide, by decide, by decide⟩
  intro or q
  simp only [queryValid, Bool.and_eq_true, specViolation, not_or,
    assert_fields_ordered_eq_true_iff, assert_field_bounded_eq_true_iff,
    assert_field_bounded_lower_eq_true_iff, assert_field_allowed_values_eq_true_iff,
    assert_fields_mutually_exclusive_eq_true_iff, check_time_field_is_valid_eq_true_iff,
    and_assoc]

/-- The loop only ever appends to the request history. -/
theorem runLoop_history_mono (or : Oracles) (resp : Nat → Response) (maxPages : Nat) :
    ∀ (fuel : Nat) (st : LoopState), ∃ t,
      (runLoop or resp maxPages fuel st).history = st.history ++ t := by
  intro fuel
  induction fuel with
  | zero => intro st; exact ⟨[], by simp [runLoop]⟩
  | succ n ih =>
    intro st
    rw [runLoop]
    split
    · exact ⟨[], by simp [finishRun]⟩
    · split
      · exact ⟨[{ st.query with limit := some (capLimit st.query.limit) }],
          loopIter_history or resp st⟩
      · obtain ⟨t, ht⟩ := ih (loopIter or resp st).1
        refine ⟨[{ st.query with limit := some (capLimit st.query.limit) }] ++ t, ?_⟩
        rw [ht, loopIter_history]
        simp
      · exact ⟨[{ st.query with limit := some (capLimit st.query.limit) }],
          by simpa [finishRun] using loopIter_history or resp st⟩

/-- When the page ceiling allows at least one iteration, the first history
entry is the initial query with its limit capped — in Python this entry is
the caller's own `Query` object, mutated in place by line 90 of `client.py`
before being appended, and never touched again after `_next_page` rebinds
the loop variable. -/
theorem execute_paginiated_history_head (or : Oracles) (resp : Nat → Response)
    (maxPages : Nat) (q : Query) (hmp : 1 ≤ maxPages) :
    ∃ t, (execute_paginiated or resp maxPages q).history
        = { q with limit := some (capLimit q.limit) } :: t := by
  rw [execute_paginiated, runLoop]
  rw [if_neg (by simp [initState]; omega)]
  split
  · refine ⟨[], ?_⟩
    dsimp only
    rw [loopIter_history]
    simp [initState]
  · obtain ⟨t, ht⟩ := runLoop_history_mono or resp maxPages maxPages
      (loopIter or resp (initState q)).1
    refine ⟨t, ?_⟩
    dsimp only
    rw [ht, loopIter_history]
    simp [initState]
  · refine ⟨[], ?_⟩
    dsimp only [finishRun]
    rw [loopIter_history]
    simp [initState]

/-- Claim C10 counterexample: the claim says that with an output file given
all Query fields are left unchanged, but the first loop iteration mutates
the caller's `limit` in place: starting from `limit = None`, the caller's
query comes back with `limit = 20000`. -/
theorem c10_counterexample_caller_limit_mutated :
    (({} : Query).limit = none) ∧
    client_execute oracleTrue respShortPage 10 {} (some "out.csv")
      = Except.ok ({ ({} : Query) with limit := some (UPPER_LIMIT : ℤ) }, none) ∧
    ({ ({} : Query) with limit := some (UPPER_LIMIT : ℤ) } : Query) ≠ ({} : Query) := by
  refine ⟨rfl, by rfl, by decide⟩

/-- Claim C10 (amended): with `output_file = None`, `Client.execute`
overwrites the caller's query's `format` to `"csv"` before fetching and
returns an in-memory table of the results; with an output file it returns
`None` and leaves `format` unchanged.  In both cases the pagination loop's
first iteration additionally overwrites the caller's query's `limit` in
place to `UPPER_LIMIT` when it was `None` and `min(limit, UPPER_LIMIT)`
otherwise; all fields other than `format` and `limit` are unchanged. -/
theorem c10_execute_mutates_format_and_limit (or : Oracles) (resp : Nat → Response)
    (maxPages : Nat) (q : Query) (f : String) (hmp : 1 ≤ maxPages) :
    (∀ q' t, client_execute or resp maxPages q none = Except.ok (q', t) →
      q' = { q with format := some "csv", limit := some (capLimit q.limit) } ∧
      ∃ r, t = some r) ∧
    (∀ q' t, client_execute or resp maxPages q (some f) = Except.ok (q', t) →
      q' = { q with limit := some (capLimit q.limit) } ∧ t = none) := by
  constructor
  · intro q' t h
    unfold client_execute at h
    simp only [Option.isNone_none, if_true] at h
    obtain ⟨tl, hhead⟩ := execute_paginiated_history_head or resp maxPages
      { q with format := some "csv" } hmp
    rw [hhead] at h
    split at h
    · cases h
    · rename_i results hres
      simp only [List.headD_cons, Except.ok.injEq, Prod.mk.injEq] at h
      exact ⟨h.1.symm, results, h.2.symm⟩
  · intro q' t h
    unfold client_execute at h
    simp only [Option.isNone_some, Bool.false_eq_true, if_false] at h
    obtain ⟨tl, hhead⟩ := execute_paginiated_history_head or resp maxPages q hmp
    rw [hhead] at h
    split at h
    · cases h
    · rename_i results hres
      simp only [List.headD_cons, Except.ok.injEq, Prod.mk.injEq] at h
      exact ⟨h.1.symm, h.2.symm⟩

/-- Witness for the amended C10 at a concrete run, with and without an
output file. -/
theorem c10_execute_mutates_format_and_limit_witness :
    (({ ({} : Query) with
          format := some "csv",
          limit := some (capLimit ({} : Query).limit) } : Query)
        = { ({} : Query) with
            format := some "csv",
            limit := some (capLimit ({} : Query).limit) } ∧
      ∃ r, (some ["H", "L1"] : Option (List String)) = some r) ∧
    (({ ({} : Query) with limit := some (capLimit ({} : Query).limit) } : Query)
        = { ({} : Query) with limit := some (capLimit ({} : Query).limit) } ∧
      (none : Option (List String)) = none) :=
  ⟨(c10_execute_mutates_format_and_limit oracleTrue respShortPage 10 {} "out.csv"
      (by decide)).1 _ _ (by rfl),
   (c10_execute_mutates_format_and_limit oracleTrue respShortPage 10 {} "out.csv"
      (by decide)).2 _ _ (by rfl)⟩
